import Mathlib

/-!
Verification of the Progress & Quiz Session Engine of the MandarinMCP
repository (a vocabulary learning and quiz assistant).

The definitions below are a shallow embedding of the Python source:
  * `update_progress` embeds the pure core of
    `MandarinDatabase.update_progress` (database.py, lines 207-286);
  * `check_answer` embeds `QuizManager.check_answer`
    (testing.py, lines 206-254);
  * `submit_quiz` embeds `QuizManager.submit_quiz`
    (testing.py, lines 256-329), with the SQLite store modelled as an
    explicit state that may fail after a prescribed number of operations;
  * `GenMC` is the set of possible outcomes of
    `QuizManager.generate_multiple_choice_quiz`
    (testing.py, lines 141-204), with the calls to `random.sample` and
    `random.shuffle` modelled nondeterministically.

Python strings are modelled as `List Char`; timestamps as natural
numbers (seconds); SQL day offsets via `addDays`.
-/

/-! ## Timestamps -/

/-- Timestamps are seconds; SQLite `datetime(t, '+d days')` adds whole days. -/
def addDays (t : Nat) (d : Nat) : Nat := t + d * 86400

/-! ## Progress records and the mastery update (database.py 207-286) -/

/-- One row of the `user_progress` table (the columns the update touches). -/
structure ProgressRecord where
  mastery_level : Nat
  times_seen : Nat
  times_correct : Nat
  times_incorrect : Nat
  last_reviewed : Nat
  next_review : Nat
deriving DecidableEq, Repr

/-- The `days_map` dictionary of `update_progress` (database.py line 240):
`{0: 1, 1: 3, 2: 7, 3: 14, 4: 30, 5: 60}`.  The Python dict has no entry
outside 0-5 (a lookup there would raise `KeyError`); the update only ever
looks up a clamped value, so the default 0 branch is unreachable there. -/
def days_map : Nat → Nat
  | 0 => 1
  | 1 => 3
  | 2 => 7
  | 3 => 14
  | 4 => 30
  | 5 => 60
  | _ => 0

/-- Pure core of `MandarinDatabase.update_progress` (database.py 207-286).
`existing` is the row fetched for the vocabulary id (`none` when absent),
`correct` the scoring bit, `now` the timestamp taken at line 231.
The UPDATE branch (lines 233-264) clamps `mastery + (1 or -1)` to [0,5],
bumps the counters, and sets `next_review = now + days_map[new_mastery]`;
the INSERT branch (lines 265-284) starts at mastery 1 or 0 with
`next_review = now + 1 day`. -/
def update_progress (existing : Option ProgressRecord) (correct : Bool) (now : Nat) :
    ProgressRecord :=
  match existing with
  | some p =>
      let mastery_change : Int := if correct then 1 else -1
      let new_mastery : Nat := (max 0 (min 5 ((p.mastery_level : Int) + mastery_change))).toNat
      { mastery_level := new_mastery
        times_seen := p.times_seen + 1
        times_correct := p.times_correct + (if correct then 1 else 0)
        times_incorrect := p.times_incorrect + (if correct then 0 else 1)
        last_reviewed := now
        next_review := addDays now (days_map new_mastery) }
  | none =>
      let initial_mastery : Nat := if correct then 1 else 0
      { mastery_level := initial_mastery
        times_seen := 1
        times_correct := if correct then 1 else 0
        times_incorrect := if correct then 0 else 1
        last_reviewed := now
        next_review := addDays now 1 }

/-- Modelled from the spec (section 4.1): `clamp(x, lo, hi)`. -/
def clampInt (x lo hi : Int) : Int := min hi (max lo x)

/-- Modelled from the spec (section 4.1): the `offsetDays` table
`{0:1, 1:3, 2:7, 3:14, 4:30, 5:60}` (days). -/
def offsetDays : Nat → Nat
  | 0 => 1
  | 1 => 3
  | 2 => 7
  | 3 => 14
  | 4 => 30
  | 5 => 60
  | _ => 0

/-- Modelled from the spec (section 4.1), the reference definition of
`applyResult(existing, correct, now)`: if absent, a new record with
mastery `1 if correct else 0`, times-seen 1, the matching counter set,
last-reviewed `now`, next-review-due `now + 1 day`; if present,
mastery clamped to [0,5] after the step, counters bumped, last-reviewed
`now`, next-review-due `now + offsetDays(new mastery)`. -/
def applyResult (existing : Option ProgressRecord) (correct : Bool) (now : Nat) :
    ProgressRecord :=
  match existing with
  | some p =>
      let m : Nat := (clampInt ((p.mastery_level : Int) + (if correct then 1 else -1)) 0 5).toNat
      { mastery_level := m
        times_seen := p.times_seen + 1
        times_correct := p.times_correct + (if correct then 1 else 0)
        times_incorrect := p.times_incorrect + (if correct then 0 else 1)
        last_reviewed := now
        next_review := addDays now (offsetDays m) }
  | none =>
      { mastery_level := if correct then 1 else 0
        times_seen := 1
        times_correct := if correct then 1 else 0
        times_incorrect := if correct then 0 else 1
        last_reviewed := now
        next_review := addDays now 1 }

/-- Folding a sequence of scoring events (correctness bit, timestamp)
over an existing progress record, one `update_progress` per event. -/
def iterUpdate (p : ProgressRecord) (events : List (Bool × Nat)) : ProgressRecord :=
  events.foldl (fun r e => update_progress (some r) e.1 e.2) p

lemma days_map_eq_offsetDays : ∀ m, days_map m = offsetDays m := by
  intro m
  cases m with
  | zero => rfl
  | succ m =>
    cases m with
    | zero => rfl
    | succ m =>
      cases m with
      | zero => rfl
      | succ m =>
        cases m with
        | zero => rfl
        | succ m =>
          cases m with
          | zero => rfl
          | succ m => cases m <;> rfl

/-- C1: the mastery update of the code, `update_progress`, coincides with
the reference definition `applyResult` modelled from the spec, in both the
record-absent and record-present cases, for every prior state, correctness
bit and timestamp. -/
theorem update_progress_eq_applyResult :
    ∀ (existing : Option ProgressRecord) (correct : Bool) (now : Nat),
      update_progress existing correct now = applyResult existing correct now := by
  intro existing correct now
  have hm : ∀ x : Int, max 0 (min 5 x) = min 5 (max 0 x) := by intro x; omega
  cases existing with
  | none => rfl
  | some p =>
    simp only [update_progress, applyResult, clampInt, days_map_eq_offsetDays, hm]

/-- C2: the mastery update never produces a mastery level outside [0,5]
(the level is a natural number, so only the upper bound is at stake);
any sequence of incorrect answers from mastery 0 leaves it at 0, and any
sequence of correct answers from mastery 5 leaves it at 5. -/
theorem mastery_stays_in_range :
    (∀ (existing : Option ProgressRecord) (correct : Bool) (now : Nat),
        (update_progress existing correct now).mastery_level ≤ 5) ∧
    (∀ (p : ProgressRecord) (events : List (Bool × Nat)),
        p.mastery_level = 0 → (∀ e ∈ events, e.1 = false) →
        (iterUpdate p events).mastery_level = 0) ∧
    (∀ (p : ProgressRecord) (events : List (Bool × Nat)),
        p.mastery_level = 5 → (∀ e ∈ events, e.1 = true) →
        (iterUpdate p events).mastery_level = 5) := by
  refine ⟨?_, ?_, ?_⟩
  · intro existing correct now
    cases existing with
    | none => cases correct <;> simp [update_progress]
    | some p =>
      cases correct <;> simp only [update_progress] <;> omega
  · intro p events
    induction events generalizing p with
    | nil => intro h _; exact h
    | cons e rest ih =>
      intro h0 hall
      have he : e.1 = false := hall e (List.mem_cons_self e rest)
      have hstep : (update_progress (some p) e.1 e.2).mastery_level = 0 := by
        rw [he]; simp [update_progress, h0]
      have := ih (update_progress (some p) e.1 e.2) hstep
        (fun x hx => hall x (List.mem_cons_of_mem e hx))
      simpa [iterUpdate] using this
  · intro p events
    induction events generalizing p with
    | nil => intro h _; exact h
    | cons e rest ih =>
      intro h5 hall
      have he : e.1 = true := hall e (List.mem_cons_self e rest)
      have hstep : (update_progress (some p) e.1 e.2).mastery_level = 5 := by
        rw [he]; simp [update_progress, h5]
      have := ih (update_progress (some p) e.1 e.2) hstep
        (fun x hx => hall x (List.mem_cons_of_mem e hx))
      simpa [iterUpdate] using this

/-- Witness for C2: a concrete record at mastery 5 and concrete event
sequences exercising all three conjuncts of `mastery_stays_in_range`. -/
theorem mastery_stays_in_range_witness :
    (update_progress (some ⟨5, 3, 2, 1, 0, 0⟩) true 7).mastery_level ≤ 5 ∧
    (iterUpdate ⟨0, 3, 1, 2, 0, 0⟩ [(false, 1), (false, 2)]).mastery_level = 0 ∧
    (iterUpdate ⟨5, 9, 9, 0, 0, 0⟩ [(true, 1), (true, 2)]).mastery_level = 5 :=
  ⟨mastery_stays_in_range.1 (some ⟨5, 3, 2, 1, 0, 0⟩) true 7,
   mastery_stays_in_range.2.1 ⟨0, 3, 1, 2, 0, 0⟩ [(false, 1), (false, 2)] rfl
     (by decide),
   mastery_stays_in_range.2.2 ⟨5, 9, 9, 0, 0, 0⟩ [(true, 1), (true, 2)] rfl
     (by decide)⟩

/-- C3: for every record reachable from a first scoring event by any
sequence of updates, times-seen equals times-correct plus times-incorrect,
and times-seen never decreases across any further update sequence. -/
theorem times_seen_invariant :
    (∀ (c0 : Bool) (t0 : Nat) (events : List (Bool × Nat)),
        (iterUpdate (update_progress none c0 t0) events).times_seen =
          (iterUpdate (update_progress none c0 t0) events).times_correct +
          (iterUpdate (update_progress none c0 t0) events).times_incorrect) ∧
    (∀ (p : ProgressRecord) (events : List (Bool × Nat)),
        p.times_seen ≤ (iterUpdate p events).times_seen) := by
  constructor
  · intro c0 t0 events
    have base : (update_progress none c0 t0).times_seen =
        (update_progress none c0 t0).times_correct +
        (update_progress none c0 t0).times_incorrect := by
      cases c0 <;> simp [update_progress]
    generalize update_progress none c0 t0 = p at base ⊢
    induction events generalizing p with
    | nil => simpa [iterUpdate] using base
    | cons e rest ih =>
      have step : (update_progress (some p) e.1 e.2).times_seen =
          (update_progress (some p) e.1 e.2).times_correct +
          (update_progress (some p) e.1 e.2).times_incorrect := by
        cases h : e.1 <;> simp [update_progress] <;> omega
      simpa [iterUpdate] using ih (update_progress (some p) e.1 e.2) step
  · intro p events
    induction events generalizing p with
    | nil => simp [iterUpdate]
    | cons e rest ih =>
      have step : p.times_seen ≤ (update_progress (some p) e.1 e.2).times_seen := by
        simp [update_progress]
      calc p.times_seen ≤ (update_progress (some p) e.1 e.2).times_seen := step
        _ ≤ (iterUpdate (update_progress (some p) e.1 e.2) rest).times_seen :=
            ih (update_progress (some p) e.1 e.2)
        _ = (iterUpdate p (e :: rest)).times_seen := by simp [iterUpdate]

/-- C9 counterexample: on the first scoring event with a correct answer the
code stores next-review = now + 1 day, while the new mastery level is 1 and
`days_map 1 = 3`, so next-review differs from
last-reviewed + offsetDays(new mastery) there. -/
theorem first_review_offset_counterexample :
    (update_progress none true 0).mastery_level = 1 ∧
    days_map 1 = 3 ∧
    (update_progress none true 0).next_review = addDays 0 1 ∧
    (update_progress none true 0).next_review ≠
      addDays (update_progress none true 0).last_reviewed
        (days_map (update_progress none true 0).mastery_level) := by
  refine ⟨rfl, rfl, rfl, ?_⟩
  decide

/-- C9 amended: the `days_map` table is exactly {0:1, 1:3, 2:7, 3:14, 4:30,
5:60}; on every update of an existing record, next-review equals
last-reviewed (= now) plus `days_map` of the new mastery level; on the
first scoring event for an item, next-review equals last-reviewed plus one
day regardless of the new mastery level. -/
theorem review_offset_table :
    (days_map 0 = 1 ∧ days_map 1 = 3 ∧ days_map 2 = 7 ∧ days_map 3 = 14 ∧
      days_map 4 = 30 ∧ days_map 5 = 60) ∧
    (∀ (p : ProgressRecord) (correct : Bool) (now : Nat),
        (update_progress (some p) correct now).last_reviewed = now ∧
        (update_progress (some p) correct now).next_review =
          addDays now (days_map ((update_progress (some p) correct now).mastery_level))) ∧
    (∀ (correct : Bool) (now : Nat),
        (update_progress none correct now).last_reviewed = now ∧
        (update_progress none correct now).next_review = addDays now 1) := by
  refine ⟨⟨rfl, rfl, rfl, rfl, rfl, rfl⟩, ?_, ?_⟩
  · intro p correct now
    exact ⟨rfl, rfl⟩
  · intro correct now
    exact ⟨rfl, rfl⟩

/-! ## Python string operations (testing.py uses strip/lower/upper/split/in) -/

/-- Characters of a Lean string literal, as the model of a Python string. -/
def pychars (s : String) : List Char := s.toList

/-- Python `str.lower` on one character (ASCII letters; other characters,
including the CJK ones appearing in the data, are unchanged). -/
def lowerChar : Char → Char
  | 'A' => 'a' | 'B' => 'b' | 'C' => 'c' | 'D' => 'd' | 'E' => 'e' | 'F' => 'f'
  | 'G' => 'g' | 'H' => 'h' | 'I' => 'i' | 'J' => 'j' | 'K' => 'k' | 'L' => 'l'
  | 'M' => 'm' | 'N' => 'n' | 'O' => 'o' | 'P' => 'p' | 'Q' => 'q' | 'R' => 'r'
  | 'S' => 's' | 'T' => 't' | 'U' => 'u' | 'V' => 'v' | 'W' => 'w' | 'X' => 'x'
  | 'Y' => 'y' | 'Z' => 'z' | c => c

/-- Python `str.upper` on one character (ASCII letters). -/
def upperChar : Char → Char
  | 'a' => 'A' | 'b' => 'B' | 'c' => 'C' | 'd' => 'D' | 'e' => 'E' | 'f' => 'F'
  | 'g' => 'G' | 'h' => 'H' | 'i' => 'I' | 'j' => 'J' | 'k' => 'K' | 'l' => 'L'
  | 'm' => 'M' | 'n' => 'N' | 'o' => 'O' | 'p' => 'P' | 'q' => 'Q' | 'r' => 'R'
  | 's' => 'S' | 't' => 'T' | 'u' => 'U' | 'v' => 'V' | 'w' => 'W' | 'x' => 'X'
  | 'y' => 'Y' | 'z' => 'Z' | c => c

/-- Whitespace characters removed by Python `str.strip`. -/
def pyIsSpace (c : Char) : Bool :=
  c = ' ' || c = '\t' || c = '\n' || c = '\r' || c = '\x0b' || c = '\x0c'

/-- Python `str.strip`: drop whitespace from both ends. -/
def pyStrip (l : List Char) : List Char :=
  ((l.dropWhile pyIsSpace).reverse.dropWhile pyIsSpace).reverse

/-- Python `str.split(',')`: segments between commas (always nonempty as a
list; adjacent commas yield empty segments). -/
def splitOnComma : List Char → List (List Char)
  | [] => [[]]
  | c :: rest =>
    match splitOnComma rest with
    | [] => [[c]]
    | s :: ss => if c = ',' then [] :: s :: ss else (c :: s) :: ss

/-- Whether the first list is a prefix of the second (step of `isSubstr`). -/
def isPrefixList : List Char → List Char → Bool
  | [], _ => true
  | _ :: _, [] => false
  | a :: as, b :: bs => a = b && isPrefixList as bs

/-- Python `needle in hay` on strings: contiguous-substring containment
(the empty string is contained in everything). -/
def isSubstr (needle : List Char) : List Char → Bool
  | [] => isPrefixList needle []
  | b :: rest => isPrefixList needle (b :: rest) || isSubstr needle rest

lemma isSubstr_nil_left : ∀ l : List Char, isSubstr [] l = true := by
  intro l
  induction l with
  | nil => rfl
  | cons b rest ih => simp [isSubstr, isPrefixList]

lemma lowerChar_comma (c : Char) : lowerChar c = ',' ↔ c = ',' := by
  unfold lowerChar
  split <;> first | rfl | decide

lemma pyIsSpace_lowerChar (c : Char) : pyIsSpace (lowerChar c) = pyIsSpace c := by
  unfold lowerChar
  split <;> rfl

/-- The lower-case ASCII letters, the image of the changing branches of
`lowerChar`. -/
def lowercaseLetters : List Char :=
  ['a', 'b', 'c', 'd', 'e', 'f', 'g', 'h', 'i', 'j', 'k', 'l', 'm',
   'n', 'o', 'p', 'q', 'r', 's', 't', 'u', 'v', 'w', 'x', 'y', 'z']

lemma lowerChar_fix_or_lower (c : Char) :
    lowerChar c = c ∨ lowerChar c ∈ lowercaseLetters := by
  unfold lowerChar
  split <;> first | (left; rfl) | (right; decide)

lemma lowerChar_idem (c : Char) : lowerChar (lowerChar c) = lowerChar c := by
  rcases lowerChar_fix_or_lower c with h | h
  · simp only [h]
  · have hall : ∀ d ∈ lowercaseLetters, lowerChar d = d := by decide
    exact hall (lowerChar c) h


lemma pyIsSpace_comp_lowerChar : pyIsSpace ∘ lowerChar = pyIsSpace :=
  funext pyIsSpace_lowerChar

lemma pyStrip_map_lowerChar (l : List Char) :
    pyStrip (l.map lowerChar) = (pyStrip l).map lowerChar := by
  simp [pyStrip, List.dropWhile_map, pyIsSpace_comp_lowerChar, ← List.map_reverse]

lemma splitOnComma_ne_nil (l : List Char) : splitOnComma l ≠ [] := by
  cases l with
  | nil => simp [splitOnComma]
  | cons c rest =>
    simp only [splitOnComma]
    cases h : splitOnComma rest with
    | nil => simp
    | cons s ss =>
      by_cases hc : c = ',' <;> simp [hc]

lemma splitOnComma_map_lowerChar (l : List Char) :
    splitOnComma (l.map lowerChar) = (splitOnComma l).map (List.map lowerChar) := by
  induction l with
  | nil => rfl
  | cons c rest ih =>
    simp only [List.map_cons, splitOnComma, ih]
    cases h : splitOnComma rest with
    | nil => exact absurd h (splitOnComma_ne_nil rest)
    | cons s ss =>
      by_cases hc : c = ','
      · simp [hc, lowerChar_comma]
      · have hlc : ¬ lowerChar c = ',' := fun h2 => hc ((lowerChar_comma c).mp h2)
        simp [hc, hlc]

lemma map_lowerChar_idem (l : List Char) :
    (l.map lowerChar).map lowerChar = l.map lowerChar := by
  rw [List.map_map]
  exact List.map_congr_left (fun c _ => lowerChar_idem c)

/-! ## Questions and the answer scorer (testing.py 206-254) -/

/-- Question kinds built by the quiz generators. -/
inductive QuestionType where
  | translation
  | multiple_choice
deriving DecidableEq, Repr

/-- One question dictionary as built by the quiz generators: vocabulary id,
rendered question text, the stored expected answer (a string for
translation questions, a letter for multiple choice), the letter-to-text
choice mapping (empty for translation questions), and the kind. -/
structure Question where
  vocab_id : Nat
  question : List Char
  correct_answer : List Char
  choices : List (List Char × List Char)
  question_type : QuestionType
deriving DecidableEq, Repr

/-- Lookup in the letter-to-text mapping (Python `question['choices'][k]`). -/
def assocLookup : List (List Char × List Char) → List Char → Option (List Char)
  | [], _ => none
  | (k, v) :: rest, key => if k = key then some v else assocLookup rest key

/-- Feedback `"✅ Correct!"` (testing.py lines 230 and 250). -/
def fbCorrect : List Char := pychars "✅ Correct!"

/-- Feedback for a wrong multiple-choice answer (testing.py line 233).
For questions built by the generator the letter is always present in the
mapping; the `[]` default stands for the key lookup. -/
def fbWrongMC (letter choiceText : List Char) : List Char :=
  pychars "❌ Incorrect. The correct answer is " ++ letter ++ pychars ": " ++ choiceText

/-- Feedback for a wrong translation answer (testing.py line 252),
repeating the stored (non-normalized) expected answer. -/
def fbWrongTrans (stored : List Char) : List Char :=
  pychars "❌ Incorrect. The correct answer is: " ++ stored

/-- `QuizManager.check_answer` (testing.py 206-254).  The raw answer is
stripped; for multiple choice both sides are upper-cased and compared
exactly; for translation both sides are lower-cased, the stored answer is
split on commas into stripped lower-cased variants, and the answer is
correct iff it equals a variant, is contained in a variant, or contains a
variant (Python substring `in`). -/
def check_answer (q : Question) (user_answer0 : List Char) : Bool × List Char :=
  let user_answer := pyStrip user_answer0
  match q.question_type with
  | .multiple_choice =>
      let correct_answer := q.correct_answer.map upperChar
      let user_answer_upper := user_answer.map upperChar
      let is_correct : Bool := user_answer_upper = correct_answer
      (is_correct,
       if is_correct then fbCorrect
       else fbWrongMC correct_answer ((assocLookup q.choices correct_answer).getD []))
  | .translation =>
      let correct_answer := q.correct_answer.map lowerChar
      let user_answer_lower := user_answer.map lowerChar
      let acceptable := (splitOnComma correct_answer).map (fun a => (pyStrip a).map lowerChar)
      let is_correct := acceptable.any (fun acc =>
        user_answer_lower = acc || isSubstr user_answer_lower acc ||
          isSubstr acc user_answer_lower)
      (is_correct, if is_correct then fbCorrect else fbWrongTrans q.correct_answer)

/-- Modelled from the spec (section 4.3, translation rule): normalize the
raw answer by trimming and lower-casing; split the stored expected answer
on commas into variants, each itself trimmed and lower-cased; correct iff
the normalized answer equals a variant, is a substring of a variant, or
some variant is a substring of the normalized answer. -/
def specTranslationAccepts (stored rawAnswer : List Char) : Bool :=
  let normalized := (pyStrip rawAnswer).map lowerChar
  let variants := (splitOnComma stored).map (fun v => (pyStrip v).map lowerChar)
  variants.any (fun v =>
    normalized = v || isSubstr normalized v || isSubstr v normalized)

lemma check_translation_eq_spec (stored ans : List Char) :
    ((splitOnComma (stored.map lowerChar)).map (fun a => (pyStrip a).map lowerChar)).any
        (fun acc => (pyStrip ans).map lowerChar = acc ||
          isSubstr ((pyStrip ans).map lowerChar) acc ||
          isSubstr acc ((pyStrip ans).map lowerChar)) =
      specTranslationAccepts stored ans := by
  unfold specTranslationAccepts
  congr 1
  rw [splitOnComma_map_lowerChar, List.map_map]
  refine List.map_congr_left (fun v _ => ?_)
  simp only [Function.comp]
  rw [pyStrip_map_lowerChar, map_lowerChar_idem]

lemma check_answer_translation_fst (vid : Nat) (qtext ca : List Char)
    (ch : List (List Char × List Char)) (ans : List Char) :
    (check_answer ⟨vid, qtext, ca, ch, .translation⟩ ans).1 =
      ((splitOnComma (ca.map lowerChar)).map (fun a => (pyStrip a).map lowerChar)).any
        (fun acc => (pyStrip ans).map lowerChar = acc ||
          isSubstr ((pyStrip ans).map lowerChar) acc ||
          isSubstr acc ((pyStrip ans).map lowerChar)) := rfl

lemma check_answer_mc_fst (vid : Nat) (qtext ca : List Char)
    (ch : List (List Char × List Char)) (ans : List Char) :
    (check_answer ⟨vid, qtext, ca, ch, .multiple_choice⟩ ans).1 =
      decide ((pyStrip ans).map upperChar = ca.map upperChar) := rfl

/-- The "人" question of the test suite and the scenario of the spec:
translation question with stored expected answer "person, people". -/
def personQ : Question :=
  { vocab_id := 7
    question := pychars "What does 人 (rén) mean in English?"
    correct_answer := pychars "person, people"
    choices := []
    question_type := .translation }

/-- C5: on every translation question, the scorer accepts exactly the
answers described by the spec rule (normalize both sides, split the stored
answer on commas into trimmed lower-cased variants, accept on equality or
substring containment either way); in particular "person", "people" and
"persons" are all accepted against "person, people". -/
theorem translation_scoring_matches_spec :
    (∀ (q : Question) (ans : List Char), q.question_type = .translation →
        (check_answer q ans).1 = specTranslationAccepts q.correct_answer ans) ∧
    (check_answer personQ (pychars "person")).1 = true ∧
    (check_answer personQ (pychars "people")).1 = true ∧
    (check_answer personQ (pychars "persons")).1 = true := by
  refine ⟨?_, by decide, by decide, by decide⟩
  intro q ans h
  obtain ⟨vid, qtext, ca, ch, ty⟩ := q
  cases ty with
  | multiple_choice => exact QuestionType.noConfusion h
  | translation =>
    rw [check_answer_translation_fst]
    exact check_translation_eq_spec ca ans

/-- Witness for C5: the general conjunct applied to the concrete "人"
question and a concrete answer. -/
theorem translation_scoring_matches_spec_witness :
    personQ.question_type = .translation ∧
    (check_answer personQ (pychars "human")).1 =
      specTranslationAccepts personQ.correct_answer (pychars "human") :=
  ⟨rfl, translation_scoring_matches_spec.1 personQ (pychars "human") rfl⟩

/-- A multiple-choice question in the shape built by the generator. -/
def mcDemoQ : Question :=
  { vocab_id := 1
    question := pychars "What does 你好 (nǐ hǎo) mean?"
    correct_answer := pychars "A"
    choices := [(pychars "A", pychars "hello"), (pychars "B", pychars "goodbye"),
                (pychars "C", pychars "thanks"), (pychars "D", pychars "yes")]
    question_type := .multiple_choice }

/-- C6 counterexample: on a translation question whose stored expected
answer is the nonempty "person, people", the empty raw answer is scored
CORRECT by the code (the empty string is a Python substring of every
variant), contradicting the claim that it is scored incorrect. -/
theorem empty_answer_scored_correct_counterexample :
    (check_answer personQ []).1 = true ∧ personQ.correct_answer ≠ [] := by
  constructor
  · rfl
  · decide

/-- C6 amended: the scorer is total (a Lean function), and the empty raw
answer is scored incorrect on a multiple-choice question unless the stored
letter is empty, but on a translation question the empty raw answer is
always scored correct, because the empty string is contained in every
comma-variant of the stored answer. -/
theorem empty_answer_scoring :
    (∀ (q : Question) (ans : List Char),
        check_answer q ans = ((check_answer q ans).1, (check_answer q ans).2)) ∧
    (∀ q : Question, q.question_type = .multiple_choice →
        ((check_answer q []).1 = true ↔ q.correct_answer = [])) ∧
    (∀ q : Question, q.question_type = .translation → (check_answer q []).1 = true) := by
  refine ⟨fun q ans => rfl, ?_, ?_⟩
  · intro q h
    obtain ⟨vid, qtext, ca, ch, ty⟩ := q
    cases ty with
    | translation => exact QuestionType.noConfusion h
    | multiple_choice =>
      rw [check_answer_mc_fst]
      have hstrip : pyStrip ([] : List Char) = [] := rfl
      simp [hstrip, List.map_eq_nil_iff, eq_comm]
  · intro q h
    obtain ⟨vid, qtext, ca, ch, ty⟩ := q
    cases ty with
    | multiple_choice => exact QuestionType.noConfusion h
    | translation =>
      rw [check_answer_translation_fst]
      cases hs : splitOnComma (ca.map lowerChar) with
      | nil => exact absurd hs (splitOnComma_ne_nil _)
      | cons s ss =>
        have h0 : isSubstr (List.map lowerChar (pyStrip ([] : List Char)))
            (List.map lowerChar (pyStrip s)) = true := isSubstr_nil_left _
        simp [hs, h0]

/-- Witness for C6 amended: the multiple-choice and translation conjuncts
applied at concrete questions. -/
theorem empty_answer_scoring_witness :
    mcDemoQ.question_type = .multiple_choice ∧
    ((check_answer mcDemoQ []).1 = true ↔ mcDemoQ.correct_answer = []) ∧
    (check_answer personQ []).1 = true :=
  ⟨rfl, empty_answer_scoring.2.1 mcDemoQ rfl, empty_answer_scoring.2.2 personQ rfl⟩

/-! ## Quiz sessions, the store model and submission (testing.py 20-63, 256-329) -/

/-- The `Quiz` object (testing.py 20-63): session id, level, questions,
kind (the Python string "translation" or "multiple_choice"), creation
time, completion flag. -/
structure Quiz where
  quiz_id : String
  hsk_level : Nat
  questions : List Question
  quiz_type : List Char
  start_time : Nat
  is_completed : Bool
deriving DecidableEq, Repr

/-- One row of the `quiz_results` table as inserted by
`record_quiz_result` (database.py 342-374). -/
structure QuizResultRow where
  quiz_type : List Char
  hsk_level : Option Nat
  total_questions : Nat
  correct_answers : Nat
  score_percentage : ℚ
  duration_seconds : Option Nat
deriving DecidableEq, Repr

/-- The SQLite store: progress rows keyed by vocabulary id, quiz-result
rows, and a failure schedule modelling an unreachable backing store:
`none` means every operation succeeds, `some k` means the k-th next store
operation raises (each `update_progress` call and each
`record_quiz_result` call is one operation, committed separately). -/
structure DbState where
  progress : List (Nat × ProgressRecord)
  quiz_results : List QuizResultRow
  failBudget : Option Nat
deriving DecidableEq, Repr

/-- Consume one store operation; `none` is the raised store error. -/
def dbStep (db : DbState) : Option DbState :=
  match db.failBudget with
  | none => some db
  | some 0 => none
  | some (k + 1) => some { db with failBudget := some k }

def lookupProgress : List (Nat × ProgressRecord) → Nat → Option ProgressRecord
  | [], _ => none
  | (k, v) :: rest, vid => if k = vid then some v else lookupProgress rest vid

def setProgress : List (Nat × ProgressRecord) → Nat → ProgressRecord → List (Nat × ProgressRecord)
  | [], vid, r => [(vid, r)]
  | (k, v) :: rest, vid, r =>
    if k = vid then (k, r) :: rest else (k, v) :: setProgress rest vid r

/-- `MandarinDatabase.update_progress` as a store operation: read the row
for the vocabulary id, apply the pure update, write it back (insert or
update); fails when the store fails. -/
def dbUpdateProgress (db : DbState) (vid : Nat) (correct : Bool) (now : Nat) :
    Option DbState :=
  match dbStep db with
  | none => none
  | some db2 =>
    some { db2 with
      progress := setProgress db2.progress vid
        (update_progress (lookupProgress db2.progress vid) correct now) }

/-- `MandarinDatabase.record_quiz_result` (database.py 342-374): append one
row; the stored score is correct/total x 100 (0 when total is 0). -/
def dbRecordQuizResult (db : DbState) (qt : List Char) (lvl : Option Nat)
    (total correct : Nat) (dur : Option Nat) : Option DbState :=
  match dbStep db with
  | none => none
  | some db2 =>
    let score : ℚ := if total > 0 then (correct : ℚ) / (total : ℚ) * 100 else 0
    some { db2 with quiz_results := db2.quiz_results ++ [⟨qt, lvl, total, correct, score, dur⟩] }

/-- One entry of the `results` list built in `submit_quiz` (testing.py
291-298). -/
structure QuestionResult where
  question_number : Nat
  question : List Char
  user_answer : List Char
  correct_answer : List Char
  is_correct : Bool
  feedback : List Char
deriving DecidableEq, Repr

/-- The result dictionary returned by `submit_quiz` (testing.py 321-329). -/
structure SubmitResult where
  quiz_id : String
  total_questions : Nat
  correct_answers : Nat
  incorrect_answers : Nat
  score_percentage : ℚ
  duration_seconds : Nat
  results : List QuestionResult
deriving DecidableEq, Repr

/-- The failures `submit_quiz` can surface: the two `ValueError`s of
testing.py 271-279 and the propagated store error. -/
inductive SubmitErr where
  | sessionNotFound
  | answerCountMismatch (expected : Nat)
  | storeFailure
deriving DecidableEq, Repr

/-- The `QuizManager` state visible to `submit_quiz`: the store and the
in-memory `active_quizzes` session table. -/
structure ManagerState where
  db : DbState
  active_quizzes : List (String × Quiz)
deriving DecidableEq, Repr

/-- Python `quiz_id in self.active_quizzes` / `self.active_quizzes[quiz_id]`. -/
def findQuiz : List (String × Quiz) → String → Option Quiz
  | [], _ => none
  | (k, v) :: rest, key => if k = key then some v else findQuiz rest key

/-- Python `del self.active_quizzes[quiz_id]` (keys are unique; filtering
the key out models the deletion). -/
def removeQuiz (l : List (String × Quiz)) (key : String) : List (String × Quiz) :=
  l.filter (fun p => p.1 ≠ key)

/-- Outcome of the scoring loop of `submit_quiz` (testing.py 285-301):
either the store failed part-way (carrying the partially updated store) or
the loop finished with the per-question results and the correct count. -/
inductive LoopOut where
  | failed (db : DbState)
  | finished (db : DbState) (results : List QuestionResult) (correct_count : Nat)
deriving DecidableEq, Repr

/-- The `for i, (question, answer) in enumerate(zip(...))` loop of
`submit_quiz`: score each answer, append the result record, update the
progress row for the question's vocabulary id; a store failure aborts the
whole call (the earlier per-question updates are already committed). -/
def scoreLoop (now : Nat) : DbState → Nat → List (Question × List Char) → LoopOut
  | db, _, [] => .finished db [] 0
  | db, i, (q, a) :: rest =>
    let r := check_answer q a
    match dbUpdateProgress db q.vocab_id r.1 now with
    | none => .failed db
    | some db2 =>
      match scoreLoop now db2 (i + 1) rest with
      | .failed dbf => .failed dbf
      | .finished dbf res cc =>
        .finished dbf
          ({ question_number := i + 1
             question := q.question
             user_answer := a
             correct_answer := q.correct_answer
             is_correct := r.1
             feedback := r.2 } :: res)
          ((if r.1 then 1 else 0) + cc)

/-- Python `round(x, 1)`. -/
def roundTo1 (q : ℚ) : ℚ := ((round (q * 10) : ℤ) : ℚ) / 10

/-- `QuizManager.submit_quiz` (testing.py 256-329).  Unknown session id
fails with `sessionNotFound` (271-272); a wrong answer count fails with
`answerCountMismatch` carrying the expected count (276-279); then every
answer is scored and its progress row updated (285-301), one aggregate
row is recorded (307-315), and only then is the session removed from the
table (317-319).  A store failure anywhere surfaces as `storeFailure` and
leaves the session table untouched. -/
def submit_quiz (st : ManagerState) (quiz_id : String) (answers : List (List Char))
    (now : Nat) : Except SubmitErr SubmitResult × ManagerState :=
  match findQuiz st.active_quizzes quiz_id with
  | none => (.error .sessionNotFound, st)
  | some quiz =>
    if answers.length ≠ quiz.questions.length then
      (.error (.answerCountMismatch quiz.questions.length), st)
    else
      match scoreLoop now st.db 0 (quiz.questions.zip answers) with
      | .failed db2 => (.error .storeFailure, { st with db := db2 })
      | .finished db2 results correct_count =>
        let total_questions := quiz.questions.length
        let score_percentage : ℚ :=
          if total_questions > 0 then
            (correct_count : ℚ) / (total_questions : ℚ) * 100
          else 0
        let duration := now - quiz.start_time
        match dbRecordQuizResult db2 quiz.quiz_type (some quiz.hsk_level)
            total_questions correct_count (some duration) with
        | none => (.error .storeFailure, { st with db := db2 })
        | some db3 =>
          (.ok { quiz_id := quiz_id
                 total_questions := total_questions
                 correct_answers := correct_count
                 incorrect_answers := total_questions - correct_count
                 score_percentage := roundTo1 score_percentage
                 duration_seconds := duration
                 results := results },
           { db := db3, active_quizzes := removeQuiz st.active_quizzes quiz_id })

/-- Observer for the outcome constructor (does not look at the payload). -/
def exceptIsOk : Except SubmitErr SubmitResult → Bool
  | .ok _ => true
  | .error _ => false

lemma findQuiz_removeQuiz (l : List (String × Quiz)) (key : String) :
    findQuiz (removeQuiz l key) key = none := by
  induction l with
  | nil => rfl
  | cons p rest ih =>
    obtain ⟨k, v⟩ := p
    by_cases hk : k = key
    · simpa [removeQuiz, hk] using ih
    · simpa [removeQuiz, findQuiz, hk] using ih

lemma submit_not_found (st : ManagerState) (qid : String) (answers : List (List Char))
    (now : Nat) (h : findQuiz st.active_quizzes qid = none) :
    submit_quiz st qid answers now = (.error .sessionNotFound, st) := by
  simp [submit_quiz, h]

lemma submit_ok_state (st : ManagerState) (qid : String) (answers : List (List Char))
    (now : Nat) (hok : exceptIsOk (submit_quiz st qid answers now).1 = true) :
    (submit_quiz st qid answers now).2.active_quizzes = removeQuiz st.active_quizzes qid := by
  cases hf : findQuiz st.active_quizzes qid with
  | none =>
    rw [submit_not_found st qid answers now hf] at hok
    simp [exceptIsOk] at hok
  | some quiz =>
    by_cases hlen : answers.length = quiz.questions.length
    · cases hsl : scoreLoop now st.db 0 (quiz.questions.zip answers) with
      | failed db2 =>
        have hs : submit_quiz st qid answers now =
            (.error .storeFailure, { st with db := db2 }) := by
          simp [submit_quiz, hf, hlen, hsl]
        rw [hs] at hok
        simp [exceptIsOk] at hok
      | finished db2 results cc =>
        cases hrec : dbRecordQuizResult db2 quiz.quiz_type (some quiz.hsk_level)
            quiz.questions.length cc (some (now - quiz.start_time)) with
        | none =>
          have hs : submit_quiz st qid answers now =
              (.error .storeFailure, { st with db := db2 }) := by
            simp [submit_quiz, hf, hlen, hsl, hrec]
          rw [hs] at hok
          simp [exceptIsOk] at hok
        | some db3 =>
          simp [submit_quiz, hf, hlen, hsl, hrec]
    · have hs : submit_quiz st qid answers now =
          (.error (.answerCountMismatch quiz.questions.length), st) := by
        simp [submit_quiz, hf, hlen]
      rw [hs] at hok
      simp [exceptIsOk] at hok

/-- C4 amended: whenever a submit call succeeds, the session is removed
from the in-memory table (its identifier no longer resolves), and any
second submit call with the same identifier fails with session-not-found
and leaves the state unchanged; a session is consumed at most once. -/
theorem submit_consumes_session :
    ∀ (st : ManagerState) (qid : String) (answers : List (List Char)) (now : Nat),
      exceptIsOk (submit_quiz st qid answers now).1 = true →
      findQuiz (submit_quiz st qid answers now).2.active_quizzes qid = none ∧
      ∀ (answers2 : List (List Char)) (now2 : Nat),
        submit_quiz (submit_quiz st qid answers now).2 qid answers2 now2 =
          (.error .sessionNotFound, (submit_quiz st qid answers now).2) := by
  intro st qid answers now hok
  have h2 : findQuiz (submit_quiz st qid answers now).2.active_quizzes qid = none := by
    rw [submit_ok_state st qid answers now hok]
    exact findQuiz_removeQuiz st.active_quizzes qid
  exact ⟨h2, fun answers2 now2 => submit_not_found _ qid answers2 now2 h2⟩

/-- A one-question translation session ("人" with expected
"person, people") registered under id "q1", over a healthy store. -/
def cQuiz : Quiz :=
  { quiz_id := "q1"
    hsk_level := 1
    questions := [personQ]
    quiz_type := pychars "translation"
    start_time := 0
    is_completed := false }

/-- Manager state holding `cQuiz` with a store that never fails. -/
def stC : ManagerState :=
  { db := { progress := [], quiz_results := [], failBudget := none }
    active_quizzes := [("q1", cQuiz)] }

/-- C4 counterexample: when the first submit call fails for a content
reason (answer-count mismatch), the session is NOT removed, and the second
call with the same identifier succeeds rather than failing with
session-not-found — so "the second call always fails with SessionNotFound"
is false as stated. -/
theorem double_submit_counterexample :
    submit_quiz stC "q1" [pychars "a", pychars "b"] 5 =
      (.error (.answerCountMismatch 1), stC) ∧
    exceptIsOk (submit_quiz stC "q1" [pychars "person"] 9).1 = true := by
  exact ⟨rfl, by decide⟩

/-- Witness for C4: a concrete successful submission, after which the
identifier no longer resolves and a repeat submission fails with
session-not-found. -/
theorem submit_consumes_session_witness :
    exceptIsOk (submit_quiz stC "q1" [pychars "person"] 9).1 = true ∧
    findQuiz (submit_quiz stC "q1" [pychars "person"] 9).2.active_quizzes "q1" = none ∧
    submit_quiz (submit_quiz stC "q1" [pychars "person"] 9).2 "q1" [pychars "again"] 12 =
      (.error .sessionNotFound, (submit_quiz stC "q1" [pychars "person"] 9).2) :=
  ⟨by decide,
   (submit_consumes_session stC "q1" [pychars "person"] 9 (by decide)).1,
   (submit_consumes_session stC "q1" [pychars "person"] 9 (by decide)).2 [pychars "again"] 12⟩

lemma scoreLoop_budget (now : Nat) :
    ∀ (qas : List (Question × List Char)) (db : DbState) (i k : Nat),
      db.failBudget = some k →
      (k < qas.length → ∃ dbf, scoreLoop now db i qas = .failed dbf) ∧
      (qas.length ≤ k → ∃ dbf res cc, scoreLoop now db i qas = .finished dbf res cc ∧
        dbf.failBudget = some (k - qas.length)) := by
  intro qas
  induction qas with
  | nil =>
    intro db i k hk
    refine ⟨fun h => absurd h (by simp), fun _ => ⟨db, [], 0, rfl, ?_⟩⟩
    simpa using hk
  | cons qa rest ih =>
    intro db i k hk
    obtain ⟨q, a⟩ := qa
    cases k with
    | zero =>
      have hstep : dbUpdateProgress db q.vocab_id (check_answer q a).1 now = none := by
        simp [dbUpdateProgress, dbStep, hk]
      constructor
      · intro _
        exact ⟨db, by simp [scoreLoop, hstep]⟩
      · intro h
        exact absurd h (by simp)
    | succ j =>
      have hstep : dbUpdateProgress db q.vocab_id (check_answer q a).1 now =
          some { db with
            failBudget := some j
            progress := setProgress db.progress q.vocab_id
              (update_progress (lookupProgress db.progress q.vocab_id)
                (check_answer q a).1 now) } := by
        simp [dbUpdateProgress, dbStep, hk]
      have ih2 := ih { db with
            failBudget := some j
            progress := setProgress db.progress q.vocab_id
              (update_progress (lookupProgress db.progress q.vocab_id)
                (check_answer q a).1 now) } (i + 1) j rfl
      constructor
      · intro hlt
        have hlt2 : j < rest.length := by
          simp only [List.length_cons] at hlt
          omega
        obtain ⟨dbf, hfail⟩ := ih2.1 hlt2
        exact ⟨dbf, by simp [scoreLoop, hstep, hfail]⟩
      · intro hle
        have hle2 : rest.length ≤ j := by
          simp only [List.length_cons] at hle
          omega
        obtain ⟨dbf, res, cc, hfin, hbf⟩ := ih2.2 hle2
        have hout : scoreLoop now db i ((q, a) :: rest) = .finished dbf
            ({ question_number := i + 1, question := q.question, user_answer := a,
               correct_answer := q.correct_answer, is_correct := (check_answer q a).1,
               feedback := (check_answer q a).2 } :: res)
            ((if (check_answer q a).1 then 1 else 0) + cc) := by
          simp [scoreLoop, hstep, hfin]
        refine ⟨dbf, _, _, hout, ?_⟩
        rw [hbf]
        congr 1
        simp only [List.length_cons]
        omega

/-- C10: if the backing store fails during submit — during one of the
per-question progress writes or during the aggregate history write (the
failure budget runs out before the n+1 store operations complete) — the
whole call fails with the store-level error (a kind distinct from
session-not-found and answer-count-mismatch), and the session table is
untouched: the session identifier still resolves to the same Built
session, so a retry is possible. -/
theorem store_failure_preserves_session :
    ∀ (st : ManagerState) (qid : String) (quiz : Quiz) (answers : List (List Char))
      (now k : Nat),
      findQuiz st.active_quizzes qid = some quiz →
      answers.length = quiz.questions.length →
      st.db.failBudget = some k →
      k ≤ quiz.questions.length →
      (submit_quiz st qid answers now).1 = .error .storeFailure ∧
      (submit_quiz st qid answers now).2.active_quizzes = st.active_quizzes ∧
      findQuiz (submit_quiz st qid answers now).2.active_quizzes qid = some quiz := by
  intro st qid quiz answers now k hf hlen hb hk
  have hzip : (quiz.questions.zip answers).length = quiz.questions.length := by
    rw [List.length_zip, hlen, Nat.min_self]
  rcases Nat.lt_or_ge k (quiz.questions.zip answers).length with hlt | hge
  · obtain ⟨dbf, hsl⟩ := (scoreLoop_budget now (quiz.questions.zip answers) st.db 0 k hb).1 hlt
    refine ⟨?_, ?_, ?_⟩ <;> simp [submit_quiz, hf, hlen, hsl, hf]
  · obtain ⟨dbf, res, cc, hsl, hbf⟩ :=
      (scoreLoop_budget now (quiz.questions.zip answers) st.db 0 k hb).2 hge
    have hz : k - (quiz.questions.zip answers).length = 0 := by omega
    have hbf0 : dbf.failBudget = some 0 := by rw [hbf, hz]
    have hrec : dbRecordQuizResult dbf quiz.quiz_type (some quiz.hsk_level)
        quiz.questions.length cc (some (now - quiz.start_time)) = none := by
      simp [dbRecordQuizResult, dbStep, hbf0]
    refine ⟨?_, ?_, ?_⟩ <;> simp [submit_quiz, hf, hlen, hsl, hrec, hf]

/-- Manager state holding `cQuiz` over a store whose next operation fails. -/
def stF : ManagerState :=
  { db := { progress := [], quiz_results := [], failBudget := some 0 }
    active_quizzes := [("q1", cQuiz)] }

/-- Witness for C10: with a store failing on its next operation, the
concrete one-question submission fails with the store error and the
session stays in the table. -/
theorem store_failure_preserves_session_witness :
    findQuiz stF.active_quizzes "q1" = some cQuiz ∧
    (submit_quiz stF "q1" [pychars "person"] 9).1 = .error .storeFailure ∧
    (submit_quiz stF "q1" [pychars "person"] 9).2.active_quizzes = stF.active_quizzes ∧
    findQuiz (submit_quiz stF "q1" [pychars "person"] 9).2.active_quizzes "q1" =
      some cQuiz :=
  ⟨by decide,
   (store_failure_preserves_session stF "q1" cQuiz [pychars "person"] 9 0
     (by decide) (by decide) rfl (by decide)).1,
   (store_failure_preserves_session stF "q1" cQuiz [pychars "person"] 9 0
     (by decide) (by decide) rfl (by decide)).2.1,
   (store_failure_preserves_session stF "q1" cQuiz [pychars "person"] 9 0
     (by decide) (by decide) rfl (by decide)).2.2⟩

/-! ## Multiple-choice quiz generation (testing.py 141-204) -/

/-- One row of the `vocabulary` table (the columns the generator uses). -/
structure Vocab where
  id : Nat
  chinese : List Char
  pinyin : List Char
  english : List Char
  hsk_level : Nat
deriving DecidableEq, Repr

/-- `get_vocabulary_by_hsk_level` (database.py 178-205): the rows of the
vocabulary table whose level matches — the `vocab_list` of the generators. -/
def levelPool (allVocab : List Vocab) (hsk_level : Nat) : List Vocab :=
  allVocab.filter (fun v => v.hsk_level = hsk_level)

/-- `other_vocab` (testing.py 171): the distractor candidates — the level
pool (`vocab_list`) minus the target item. -/
def otherVocab (pool : List Vocab) (v : Vocab) : List Vocab :=
  pool.filter (fun w => w.id ≠ v.id)

/-- Modelled from the spec (section 4.2, multiple-choice rule): the
remainder of the FULL vocabulary pool excluding the target — what the
claim says the distractors are drawn from. -/
def otherVocabSpec (allVocab : List Vocab) (v : Vocab) : List Vocab :=
  allVocab.filter (fun w => w.id ≠ v.id)

/-- testing.py 174-195: build one multiple-choice question from the target
item and the shuffled choice texts: letters A-C take the first three
texts, D takes the fourth when there are more than three (else the first),
and the recorded correct letter is `chr(65 + index of the correct text)`. -/
def mkMCQuestion (v : Vocab) (shuffled : List (List Char)) : Question :=
  let correct_index := shuffled.indexOf v.english
  let correct_letter := Char.ofNat (65 + correct_index)
  { vocab_id := v.id
    question := pychars "What does '" ++ v.chinese ++ pychars "' (" ++ v.pinyin ++
      pychars ") mean?"
    correct_answer := [correct_letter]
    choices := [(pychars "A", shuffled.getD 0 []), (pychars "B", shuffled.getD 1 []),
                (pychars "C", shuffled.getD 2 []),
                (pychars "D", if 3 < shuffled.length then shuffled.getD 3 []
                  else shuffled.getD 0 [])]
    question_type := .multiple_choice }

/-- The possible questions the generator builds for a target `v` from the
level pool `pool` (testing.py 169-197): `random.sample(other_vocab,
min(3, len(other_vocab)))` is any subpermutation of the candidates of that
length, the choice list is the correct translation plus the first three
distractor translations, and `random.shuffle` is any permutation of it. -/
def MCQuestionRel (pool : List Vocab) (v : Vocab) (q : Question) : Prop :=
  ∃ (ds : List Vocab) (shuffled : List (List Char)),
    List.Subperm ds (otherVocab pool v) ∧
    ds.length = min 3 (otherVocab pool v).length ∧
    List.Perm shuffled (v.english :: (ds.take 3).map Vocab.english) ∧
    q = mkMCQuestion v shuffled

/-- The error raised by `generate_multiple_choice_quiz` (testing.py 163). -/
inductive QuizError where
  | insufficientVocabulary
deriving DecidableEq, Repr

/-- The possible outcomes of `generate_multiple_choice_quiz`
(testing.py 141-204): with fewer than 4 items in the level pool the call
raises; otherwise `random.sample(vocab_list, num_questions)` selects
`min(num_questions, len(vocab_list))` items and one question is built per
selected item. -/
inductive GenMC (allVocab : List Vocab) (hsk_level num_questions : Nat) :
    Except QuizError (List Question) → Prop where
  | insufficient :
      (levelPool allVocab hsk_level).length < 4 →
      GenMC allVocab hsk_level num_questions (.error .insufficientVocabulary)
  | ok (selected : List Vocab) (qs : List Question) :
      4 ≤ (levelPool allVocab hsk_level).length →
      List.Subperm selected (levelPool allVocab hsk_level) →
      selected.length = min num_questions (levelPool allVocab hsk_level).length →
      List.Forall₂ (MCQuestionRel (levelPool allVocab hsk_level)) selected qs →
      GenMC allVocab hsk_level num_questions (.ok qs)

/-- C8: with fewer than 4 vocabulary items system-wide, every possible
outcome of building a multiple-choice quiz is the
insufficient-vocabulary error — the build never returns a session. -/
theorem mc_quiz_insufficient_vocabulary :
    ∀ (allVocab : List Vocab) (hsk_level num_questions : Nat)
      (r : Except QuizError (List Question)),
      allVocab.length < 4 →
      GenMC allVocab hsk_level num_questions r →
      r = .error .insufficientVocabulary := by
  intro allVocab lvl nq r hlt hg
  cases hg with
  | insufficient _ => rfl
  | ok selected qs h4 _ _ _ =>
    exact absurd h4 (by
      have hle := List.length_filter_le
        (fun v : Vocab => decide (v.hsk_level = lvl)) allVocab
      simp only [levelPool]
      omega)

/-- A two-item vocabulary (fewer than the 4 needed for distractors). -/
def smallVocab : List Vocab :=
  [⟨1, pychars "你", pychars "nǐ", pychars "you", 1⟩,
   ⟨2, pychars "好", pychars "hǎo", pychars "good", 1⟩]

/-- Witness for C8: the two-item vocabulary is below the bound, and the
theorem applies to the derivable error outcome. -/
theorem mc_quiz_insufficient_vocabulary_witness :
    smallVocab.length < 4 ∧
    (.error .insufficientVocabulary : Except QuizError (List Question)) =
      .error .insufficientVocabulary :=
  ⟨by decide,
   mc_quiz_insufficient_vocabulary smallVocab 1 5 (.error .insufficientVocabulary)
     (by decide) (GenMC.insufficient (by decide))⟩

/-- A five-item vocabulary: four items at level 1 and one at level 2. -/
def demoOffLevel : Vocab := ⟨5, pychars "朋友", pychars "péngyou", pychars "friend", 2⟩

def demoPool : List Vocab :=
  [⟨1, pychars "你好", pychars "nǐ hǎo", pychars "hello", 1⟩,
   ⟨2, pychars "再见", pychars "zàijiàn", pychars "goodbye", 1⟩,
   ⟨3, pychars "谢谢", pychars "xièxie", pychars "thanks", 1⟩,
   ⟨4, pychars "老师", pychars "lǎoshī", pychars "teacher", 1⟩,
   demoOffLevel]

def demoTarget : Vocab := ⟨1, pychars "你好", pychars "nǐ hǎo", pychars "hello", 1⟩

/-- C7 counterexample: the code draws distractors from `other_vocab`,
built from the LEVEL pool (`vocab_list` is the result of
`get_vocabulary_by_hsk_level`), not from the full pool: for a level-1 quiz
over `demoPool`, the level-2 item is an eligible distractor under the
spec's "remainder of the full pool" rule but is not among the code's
candidates. -/
theorem distractor_pool_counterexample :
    demoOffLevel ∈ otherVocabSpec demoPool demoTarget ∧
    demoOffLevel ∉ otherVocab (levelPool demoPool 1) demoTarget := by
  constructor <;> decide

lemma otherVocab_length_ge (pool : List Vocab) (v : Vocab)
    (hnd : (pool.map Vocab.id).Nodup) :
    pool.length - 1 ≤ (otherVocab pool v).length := by
  induction pool with
  | nil => simp [otherVocab]
  | cons w rest ih =>
    have hcons : w.id ∉ rest.map Vocab.id ∧ (rest.map Vocab.id).Nodup := by
      simpa [List.nodup_cons] using hnd
    have ih2 := ih hcons.2
    by_cases hw : w.id = v.id
    · have hall : otherVocab rest v = rest := by
        rw [otherVocab, List.filter_eq_self]
        intro x hx
        simp only [decide_eq_true_eq]
        intro hxv
        exact hcons.1 (List.mem_map.mpr ⟨x, hx, by rw [hxv, hw]⟩)
      have hstep : otherVocab (w :: rest) v = otherVocab rest v := by
        simp [otherVocab, hw]
      rw [hstep, hall]
      simp
    · have hstep : otherVocab (w :: rest) v = w :: otherVocab rest v := by
        simp [otherVocab, hw]
      rw [hstep]
      simp only [List.length_cons]
      omega

lemma getD_indexOf (l : List (List Char)) (a : List Char) (h : a ∈ l) :
    l.getD (l.indexOf a) [] = a ∧ l.indexOf a < l.length := by
  induction l with
  | nil => cases h
  | cons b rest ih =>
    rw [List.indexOf_cons]
    by_cases hb : b == a
    · have hba : b = a := by simpa using hb
      simp [hb, hba]
    · have hmem : a ∈ rest := by
        rcases List.mem_cons.mp h with h1 | h1
        · exact absurd (by simp [h1]) hb
        · exact h1
      have ih2 := ih hmem
      have hbf : (b == a) = false := by simpa using hb
      simp only [hbf, cond_false, List.getD_cons_succ, List.length_cons]
      exact ⟨ih2.1, by omega⟩

lemma list_eq_of_length_four (l : List (List Char)) (h : l.length = 4) :
    l = [l.getD 0 [], l.getD 1 [], l.getD 2 [], l.getD 3 []] := by
  rcases l with _ | ⟨a, _ | ⟨b, _ | ⟨c, _ | ⟨d, _ | ⟨e, t⟩⟩⟩⟩⟩ <;>
    first
      | rfl
      | simp at h

/-- C7 amended: for every question the generator can build, the three
distractors form a duplicate-free subpermutation of the LEVEL pool minus
the target (not of the full pool), the four candidates carry letters
A, B, C, D in order, the lettered texts are a permutation of the correct
translation together with the three distractor translations, and the
recorded correct letter resolves to the correct translation. -/
theorem mc_distractors_from_level_pool :
    ∀ (pool : List Vocab) (v : Vocab) (q : Question),
      4 ≤ pool.length →
      ((pool.map Vocab.id).Nodup) →
      MCQuestionRel pool v q →
      ∃ ds : List Vocab,
        List.Subperm ds (otherVocab pool v) ∧
        ds.length = 3 ∧
        ds.Nodup ∧
        (∀ d ∈ ds, d ∈ pool ∧ d.id ≠ v.id) ∧
        q.choices.map Prod.fst = [pychars "A", pychars "B", pychars "C", pychars "D"] ∧
        List.Perm (q.choices.map Prod.snd) (v.english :: ds.map Vocab.english) ∧
        assocLookup q.choices q.correct_answer = some v.english := by
  intro pool v q h4 hnd hrel
  obtain ⟨ds, shuffled, hsub, hlen, hperm, hq⟩ := hrel
  have hov : 3 ≤ (otherVocab pool v).length := by
    have := otherVocab_length_ge pool v hnd
    omega
  have hlen3 : ds.length = 3 := by
    rw [hlen]
    omega
  have htake : ds.take 3 = ds := List.take_of_length_le (by omega)
  rw [htake] at hperm
  have hpool_nodup : pool.Nodup := List.Nodup.of_map Vocab.id hnd
  have hother_nodup : (otherVocab pool v).Nodup := List.Nodup.filter _ hpool_nodup
  have hds_nodup : ds.Nodup := by
    obtain ⟨l, hp, hsl⟩ := hsub
    exact (hp.nodup_iff).mp (hsl.nodup hother_nodup)
  have hmem : ∀ d ∈ ds, d ∈ pool ∧ d.id ≠ v.id := by
    intro d hd
    have hdm := hsub.subset hd
    simpa [otherVocab, List.mem_filter] using hdm
  have hlen_sh : shuffled.length = 4 := by
    have hle := hperm.length_eq
    simp only [List.length_cons, List.length_map, hlen3] at hle
    omega
  have hmemv : v.english ∈ shuffled := hperm.mem_iff.mpr (List.mem_cons_self _ _)
  have hio := getD_indexOf shuffled v.english hmemv
  have hlt : shuffled.indexOf v.english < shuffled.length := hio.2
  have hidx : shuffled.indexOf v.english < 4 := by omega
  have hget : shuffled.getD (shuffled.indexOf v.english) [] = v.english := hio.1
  have h4' : 3 < shuffled.length := by omega
  have hD : (if 3 < shuffled.length then shuffled.getD 3 [] else shuffled.getD 0 []) =
      shuffled.getD 3 [] := if_pos h4'
  subst hq
  refine ⟨ds, hsub, hlen3, hds_nodup, hmem, ?_, ?_, ?_⟩
  · simp [mkMCQuestion]
  · have hchoices : (mkMCQuestion v shuffled).choices.map Prod.snd =
        [shuffled.getD 0 [], shuffled.getD 1 [], shuffled.getD 2 [], shuffled.getD 3 []] := by
      simp only [mkMCQuestion, List.map_cons, List.map_nil]
      rw [hD]
    rw [hchoices, ← list_eq_of_length_four shuffled hlen_sh]
    exact hperm
  · simp only [mkMCQuestion, hD]
    have hidx4 : shuffled.indexOf v.english = 0 ∨ shuffled.indexOf v.english = 1 ∨
        shuffled.indexOf v.english = 2 ∨ shuffled.indexOf v.english = 3 := by omega
    rcases hidx4 with h | h | h | h <;> rw [h] at hget ⊢ <;> rw [← hget] <;> rfl

/-- An identity draw for the witness: the three level-1 non-target items as
distractors and the unshuffled choice order. -/
def demoShuffled : List (List Char) :=
  demoTarget.english :: (otherVocab (levelPool demoPool 1) demoTarget).map Vocab.english

/-- The question built from the identity draw. -/
def demoMCBuilt : Question := mkMCQuestion demoTarget demoShuffled

/-- Witness for C7: a concrete derivable question over the four level-1
items of `demoPool`, with the theorem's conclusion instantiated there. -/
theorem mc_distractors_from_level_pool_witness :
    (4 ≤ (levelPool demoPool 1).length ∧
     ((levelPool demoPool 1).map Vocab.id).Nodup ∧
     MCQuestionRel (levelPool demoPool 1) demoTarget demoMCBuilt) ∧
    ∃ ds : List Vocab,
      List.Subperm ds (otherVocab (levelPool demoPool 1) demoTarget) ∧
      ds.length = 3 ∧
      ds.Nodup ∧
      (∀ d ∈ ds, d ∈ levelPool demoPool 1 ∧ d.id ≠ demoTarget.id) ∧
      demoMCBuilt.choices.map Prod.fst =
        [pychars "A", pychars "B", pychars "C", pychars "D"] ∧
      List.Perm (demoMCBuilt.choices.map Prod.snd)
        (demoTarget.english :: ds.map Vocab.english) ∧
      assocLookup demoMCBuilt.choices demoMCBuilt.correct_answer =
        some demoTarget.english :=
  ⟨⟨by decide, by decide,
    ⟨otherVocab (levelPool demoPool 1) demoTarget, demoShuffled,
     List.Subperm.refl _, by decide, by decide, rfl⟩⟩,
   mc_distractors_from_level_pool (levelPool demoPool 1) demoTarget demoMCBuilt
     (by decide) (by decide)
     ⟨otherVocab (levelPool demoPool 1) demoTarget, demoShuffled,
      List.Subperm.refl _, by decide, by decide, rfl⟩⟩
